import Mathlib

/-!
Verification of the event-sourced session/duration engine of the
bloods-timetracker Discord bot.

The embedding below follows the Prisma-backed variant of the code:

* `PrismaService` (src/src/database/prisma.js): the session store and the
  pure duration calculator `calculateSessionDuration`.
* `SessionManager` (src/src/utils/sessionManager.js): the lifecycle
  orchestration used by the HTTP-interactions entry point.
* `TimeTrackingManager` (same file, second variant): the alternative
  lifecycle manager with distinct already-paused / already-active errors.

Timestamps are modelled as `Int` milliseconds since the epoch
(JavaScript `Date.getTime()` values).  Stateful database operations are
modelled as pure functions on an explicit `Store` state; a JavaScript
`throw` becomes `Except.error` carrying the thrown message.  Each model
invocation is atomic, matching one awaited command invocation.
-/

/-- Event types of `session_events.eventType` (enum `event_type` in the
SQL migration): START, PAUSE, RESUME, STOP. -/
inductive EventType where
  | START
  | PAUSE
  | RESUME
  | STOP
deriving DecidableEq

/-- Session statuses of `sessions.status` (enum `session_status`). -/
inductive SessionStatus where
  | ACTIVE
  | PAUSED
  | COMPLETED
deriving DecidableEq

/-- One row of `session_events`, as consumed by the duration calculator:
an event type and the caller-supplied timestamp in milliseconds. -/
structure SessionEvent where
  eventType : EventType
  timestamp : Int
deriving DecidableEq

/-- One step of the loop body of
`PrismaService.calculateSessionDuration`: the accumulator is
`(totalDuration, lastActiveStart)`.  START/RESUME set `lastActiveStart`;
PAUSE/STOP add `timestamp - lastActiveStart` when it is set and clear it,
and do nothing when it is unset. -/
def durStep (acc : Int × Option Int) (event : SessionEvent) : Int × Option Int :=
  match event.eventType with
  | .START => (acc.1, some event.timestamp)
  | .RESUME => (acc.1, some event.timestamp)
  | .PAUSE =>
    match acc.2 with
    | some t => (acc.1 + (event.timestamp - t), none)
    | none => acc
  | .STOP =>
    match acc.2 with
    | some t => (acc.1 + (event.timestamp - t), none)
    | none => acc

/-- Final step of `PrismaService.calculateSessionDuration`: if
`lastActiveStart` is still set after the loop, add
`currentTime - lastActiveStart`. -/
def finishDur (currentTime : Int) (acc : Int × Option Int) : Int :=
  match acc.2 with
  | some t => acc.1 + (currentTime - t)
  | none => acc.1

/-- `PrismaService.calculateSessionDuration(events, currentTime)`
(src/src/database/prisma.js lines 193-230): returns 0 on an empty event
list, otherwise folds `durStep` over the events and closes a still-open
active interval at `currentTime`. -/
def calculateSessionDuration (events : List SessionEvent) (currentTime : Int) : Int :=
  if events.isEmpty then 0
  else finishDur currentTime (events.foldl durStep (0, none))

/-- Modelled from the spec: the Pause/Resume pairs of a well-formed
alternating sequence, flattened into events. -/
def pairEvents : List (Int × Int) → List SessionEvent
  | [] => []
  | (p, r) :: rest => ⟨.PAUSE, p⟩ :: ⟨.RESUME, r⟩ :: pairEvents rest

/-- Modelled from the spec: a well-formed closed event sequence — one
Start, then alternating Pause/Resume pairs, then a terminal Stop. -/
def closedSeq (t0 : Int) (pairs : List (Int × Int)) (tStop : Int) : List SessionEvent :=
  ⟨.START, t0⟩ :: (pairEvents pairs ++ [⟨.STOP, tStop⟩])

/-- Modelled from the spec: a well-formed still-open event sequence — one
Start followed by alternating Pause/Resume pairs (no Stop). -/
def openSeq (t0 : Int) (pairs : List (Int × Int)) : List SessionEvent :=
  ⟨.START, t0⟩ :: pairEvents pairs

/-- Modelled from the spec: the sum of the active sub-intervals of a
well-formed sequence starting (or resuming) at `t` with pause/resume
pairs `pairs`, whose last active interval ends at `tEnd`.  Time strictly
between each Pause and the next Resume contributes nothing. -/
def activeSum (t : Int) (pairs : List (Int × Int)) (tEnd : Int) : Int :=
  match pairs with
  | [] => tEnd - t
  | (p, r) :: rest => (p - t) + activeSum r rest tEnd

/-- Closed contribution of the pause/resume pairs: the sum of the active
intervals that are closed by a Pause. -/
def closedPart (t : Int) : List (Int × Int) → Int
  | [] => 0
  | (p, r) :: rest => (p - t) + closedPart r rest

/-- Start of the last (still running) active interval after folding the
pause/resume pairs. -/
def lastRes (t : Int) : List (Int × Int) → Int
  | [] => t
  | (_, r) :: rest => lastRes r rest

theorem foldl_durStep_pairEvents (pairs : List (Int × Int)) :
    ∀ tot t : Int,
      List.foldl durStep (tot, some t) (pairEvents pairs)
        = (tot + closedPart t pairs, some (lastRes t pairs)) := by
  induction pairs with
  | nil => intro tot t; simp [pairEvents, closedPart, lastRes]
  | cons pr rest ih =>
    intro tot t
    obtain ⟨p, r⟩ := pr
    simp only [pairEvents, List.foldl_cons, durStep, closedPart, lastRes]
    rw [ih]
    ring_nf

theorem activeSum_decomp (pairs : List (Int × Int)) :
    ∀ t tEnd : Int, activeSum t pairs tEnd = closedPart t pairs + (tEnd - lastRes t pairs) := by
  induction pairs with
  | nil => intro t tEnd; simp [activeSum, closedPart, lastRes]
  | cons pr rest ih =>
    intro t tEnd
    obtain ⟨p, r⟩ := pr
    simp only [activeSum, closedPart, lastRes]
    rw [ih]
    ring

/-- C2: on the well-formed closed sequence
`Start@t0, Pause/Resume pairs, Stop@tStop`, the duration calculator
returns exactly the sum of the active sub-intervals (excluding every
pause gap), for every reference time; in particular the sequence
`[Start@T0, Pause@T0+1000, Resume@T0+3000, Stop@T0+4000]` yields 2000 ms
for any `T0` and any reference time; and a still-open well-formed
sequence yields the sum of its active sub-intervals with the last
interval closed at the reference time. -/
theorem wellformed_duration_is_active_interval_sum :
    (∀ (t0 tStop ref : Int) (pairs : List (Int × Int)),
      calculateSessionDuration (closedSeq t0 pairs tStop) ref = activeSum t0 pairs tStop) ∧
    (∀ T0 ref : Int,
      calculateSessionDuration
        [⟨.START, T0⟩, ⟨.PAUSE, T0 + 1000⟩, ⟨.RESUME, T0 + 3000⟩, ⟨.STOP, T0 + 4000⟩] ref
        = 2000) ∧
    (∀ (t0 ref : Int) (pairs : List (Int × Int)),
      calculateSessionDuration (openSeq t0 pairs) ref = activeSum t0 pairs ref) := by
  have hclosed : ∀ (t0 tStop ref : Int) (pairs : List (Int × Int)),
      calculateSessionDuration (closedSeq t0 pairs tStop) ref = activeSum t0 pairs tStop := by
    intro t0 tStop ref pairs
    simp only [calculateSessionDuration, closedSeq, List.isEmpty_cons, if_false,
      Bool.false_eq_true, List.foldl_cons, List.foldl_append]
    have h0 : durStep (0, none) ⟨.START, t0⟩ = (0, some t0) := rfl
    rw [h0, foldl_durStep_pairEvents]
    simp only [List.foldl_cons, List.foldl_nil, durStep, finishDur]
    rw [activeSum_decomp]
    ring
  refine ⟨hclosed, ?_, ?_⟩
  · intro T0 ref
    have h := hclosed T0 (T0 + 4000) ref [(T0 + 1000, T0 + 3000)]
    simp only [closedSeq, pairEvents, List.cons_append, List.nil_append,
      activeSum] at h
    rw [h]
    ring
  · intro t0 ref pairs
    simp only [calculateSessionDuration, openSeq, List.isEmpty_cons, if_false,
      Bool.false_eq_true, List.foldl_cons]
    have h0 : durStep (0, none) ⟨.START, t0⟩ = (0, some t0) := rfl
    rw [h0, foldl_durStep_pairEvents]
    simp only [finishDur]
    rw [activeSum_decomp]
    ring

theorem finishDur_durStep_stop (acc : Int × Option Int) (now ref : Int) :
    finishDur ref (durStep acc ⟨.STOP, now⟩) = finishDur now acc := by
  rcases acc with ⟨tot, last⟩
  cases last <;> simp [durStep, finishDur]

/-- C3: closing preserves history — for every event list and every `now`,
the duration computed over the pre-stop events with reference time `now`
equals the duration computed over the same events with a terminal
`Stop@now` appended, under any reference time. -/
theorem closing_preserves_history
    (events : List SessionEvent) (now ref : Int) :
    calculateSessionDuration events now
      = calculateSessionDuration (events ++ [⟨.STOP, now⟩]) ref := by
  cases events with
  | nil => simp [calculateSessionDuration, durStep, finishDur]
  | cons e es =>
    have h1 : calculateSessionDuration (e :: es) now
        = finishDur now (List.foldl durStep (0, none) (e :: es)) := rfl
    have h2 : calculateSessionDuration ((e :: es) ++ [⟨.STOP, now⟩]) ref
        = finishDur ref (durStep (List.foldl durStep (0, none) (e :: es)) ⟨.STOP, now⟩) := by
      show finishDur ref (List.foldl durStep (0, none) ((e :: es) ++ [⟨.STOP, now⟩])) = _
      rw [List.foldl_append]
      rfl
    rw [h1, h2, finishDur_durStep_stop]

theorem foldl_durStep_pause_stop_only :
    ∀ (events : List SessionEvent) (tot : Int),
      (∀ e ∈ events, e.eventType = .PAUSE ∨ e.eventType = .STOP) →
      List.foldl durStep (tot, none) events = (tot, none) := by
  intro events
  induction events with
  | nil => intro tot _; rfl
  | cons e es ih =>
    intro tot h
    have he := h e (List.mem_cons_self e es)
    have hstep : durStep (tot, none) e = (tot, none) := by
      rcases he with he | he <;> simp [durStep, he]
    simp only [List.foldl_cons, hstep]
    exact ih tot (fun e' he' => h e' (List.mem_cons_of_mem e he'))

/-- C5: the duration calculator is a total function that degrades
gracefully on malformed input: any event list containing only
Pause/Stop events (no preceding Start/Resume) yields 0; in particular a
single Pause event yields 0, and the empty list yields 0. -/
theorem duration_total_on_malformed :
    (∀ (events : List SessionEvent) (ref : Int),
      (∀ e ∈ events, e.eventType = .PAUSE ∨ e.eventType = .STOP) →
      calculateSessionDuration events ref = 0) ∧
    (∀ t ref : Int, calculateSessionDuration [⟨.PAUSE, t⟩] ref = 0) ∧
    (∀ ref : Int, calculateSessionDuration [] ref = 0) := by
  have hmain : ∀ (events : List SessionEvent) (ref : Int),
      (∀ e ∈ events, e.eventType = .PAUSE ∨ e.eventType = .STOP) →
      calculateSessionDuration events ref = 0 := by
    intro events ref h
    cases events with
    | nil => rfl
    | cons e es =>
      simp only [calculateSessionDuration, List.isEmpty_cons, Bool.false_eq_true, if_false]
      rw [foldl_durStep_pause_stop_only (e :: es) 0 h]
      rfl
  refine ⟨hmain, ?_, ?_⟩
  · intro t ref
    exact hmain [⟨.PAUSE, t⟩] ref (by intro e he; simp at he; simp [he])
  · intro ref; rfl

/-- Closed witness for C5, applying the theorem at the concrete
single-Pause list. -/
theorem duration_total_on_malformed_witness :
    calculateSessionDuration [⟨.PAUSE, 7⟩, ⟨.STOP, 3⟩] 100 = 0 :=
  duration_total_on_malformed.1 [⟨.PAUSE, 7⟩, ⟨.STOP, 3⟩] 100 (by decide)

theorem foldl_durStep_nonneg (curr : Int) :
    ∀ (events : List SessionEvent) (tot : Int) (last : Option Int),
      List.Pairwise (fun a b : SessionEvent => a.timestamp ≤ b.timestamp) events →
      (∀ e ∈ events, e.timestamp ≤ curr) →
      0 ≤ tot →
      (∀ t, last = some t → (∀ e ∈ events, t ≤ e.timestamp) ∧ t ≤ curr) →
      0 ≤ finishDur curr (List.foldl durStep (tot, last) events) := by
  intro events
  induction events with
  | nil =>
    intro tot last _ _ htot hlast
    cases last with
    | none => simpa [finishDur] using htot
    | some t =>
      have ht := (hlast t rfl).2
      simp only [List.foldl_nil, finishDur]
      omega
  | cons e es ih =>
    intro tot last hsort hcurr htot hlast
    have hsort' := List.Pairwise.sublist (List.sublist_cons_self e es) hsort
    have hhead : ∀ e' ∈ es, e.timestamp ≤ e'.timestamp := by
      intro e' he'
      exact List.rel_of_pairwise_cons hsort he'
    have hecurr : e.timestamp ≤ curr := hcurr e (List.mem_cons_self e es)
    have hcurr' : ∀ e' ∈ es, e'.timestamp ≤ curr :=
      fun e' he' => hcurr e' (List.mem_cons_of_mem e he')
    simp only [List.foldl_cons]
    rcases het : e.eventType with _ | _ | _ | _
    · -- START
      have hstep : durStep (tot, last) e = (tot, some e.timestamp) := by
        simp [durStep, het]
      rw [hstep]
      exact ih tot (some e.timestamp) hsort' hcurr' htot
        (fun t ht => by cases ht; exact ⟨hhead, hecurr⟩)
    · -- PAUSE
      cases last with
      | none =>
        have hstep : durStep (tot, none) e = (tot, none) := by simp [durStep, het]
        rw [hstep]
        exact ih tot none hsort' hcurr' htot (fun t ht => by cases ht)
      | some t =>
        have hstep : durStep (tot, some t) e = (tot + (e.timestamp - t), none) := by
          simp [durStep, het]
        rw [hstep]
        have hte : t ≤ e.timestamp := (hlast t rfl).1 e (List.mem_cons_self e es)
        exact ih (tot + (e.timestamp - t)) none hsort' hcurr' (by omega)
          (fun t' ht' => by cases ht')
    · -- RESUME
      have hstep : durStep (tot, last) e = (tot, some e.timestamp) := by
        simp [durStep, het]
      rw [hstep]
      exact ih tot (some e.timestamp) hsort' hcurr' htot
        (fun t ht => by cases ht; exact ⟨hhead, hecurr⟩)
    · -- STOP
      cases last with
      | none =>
        have hstep : durStep (tot, none) e = (tot, none) := by simp [durStep, het]
        rw [hstep]
        exact ih tot none hsort' hcurr' htot (fun t ht => by cases ht)
      | some t =>
        have hstep : durStep (tot, some t) e = (tot + (e.timestamp - t), none) := by
          simp [durStep, het]
        rw [hstep]
        have hte : t ≤ e.timestamp := (hlast t rfl).1 e (List.mem_cons_self e es)
        exact ih (tot + (e.timestamp - t)) none hsort' hcurr' (by omega)
          (fun t' ht' => by cases ht')

/-- C4 (amended): the calculator performs no clamping, but on
chronologically ordered event lists whose reference time is at or after
every event, the computed duration is non-negative. -/
theorem duration_nonneg_of_chronological
    (events : List SessionEvent) (curr : Int)
    (hsort : List.Pairwise (fun a b : SessionEvent => a.timestamp ≤ b.timestamp) events)
    (hcurr : ∀ e ∈ events, e.timestamp ≤ curr) :
    0 ≤ calculateSessionDuration events curr := by
  cases events with
  | nil => simp [calculateSessionDuration]
  | cons e es =>
    simp only [calculateSessionDuration, List.isEmpty_cons, Bool.false_eq_true, if_false]
    exact foldl_durStep_nonneg curr (e :: es) 0 none hsort hcurr (le_refl 0)
      (fun t ht => by cases ht)

/-- Closed witness for C4's amended theorem at a concrete sorted list. -/
theorem duration_nonneg_of_chronological_witness :
    0 ≤ calculateSessionDuration [⟨.START, 0⟩, ⟨.STOP, 5⟩] 5 :=
  duration_nonneg_of_chronological [⟨.START, 0⟩, ⟨.STOP, 5⟩] 5 (by decide) (by decide)

/-- Counterexample for C4 as stated: a Stop whose timestamp precedes the
matching Start is not clamped to zero — the calculator returns the
negative value -1000. -/
theorem duration_negative_without_clamping :
    calculateSessionDuration [⟨.START, 1000⟩, ⟨.STOP, 0⟩] 0 = -1000 := by
  decide

/-- C10: the calculator is monotone non-decreasing in the reference time,
and whenever the event list ends with a Pause or a Stop (no open active
interval remains), the result does not depend on the reference time. -/
theorem duration_monotone_in_reference_time :
    (∀ (events : List SessionEvent) (t1 t2 : Int), t1 ≤ t2 →
      calculateSessionDuration events t1 ≤ calculateSessionDuration events t2) ∧
    (∀ (events : List SessionEvent) (e : SessionEvent),
      (e.eventType = .PAUSE ∨ e.eventType = .STOP) →
      ∀ r1 r2 : Int,
        calculateSessionDuration (events ++ [e]) r1
          = calculateSessionDuration (events ++ [e]) r2) := by
  constructor
  · intro events t1 t2 h12
    cases events with
    | nil => simp [calculateSessionDuration]
    | cons e es =>
      simp only [calculateSessionDuration, List.isEmpty_cons, Bool.false_eq_true, if_false]
      rcases List.foldl durStep (0, none) (e :: es) with ⟨tot, last⟩
      cases last with
      | none => simp [finishDur]
      | some t => simp only [finishDur]; omega
  · intro events e he r1 r2
    have hne : (events ++ [e]).isEmpty = false := by
      cases events <;> simp
    simp only [calculateSessionDuration, hne, Bool.false_eq_true, if_false,
      List.foldl_append]
    rcases List.foldl durStep (0, none) events with ⟨tot, last⟩
    rcases he with he | he <;> cases last <;>
      simp [durStep, he, List.foldl_cons, List.foldl_nil, finishDur]

/-- Closed witness for C10, applying both conjuncts at concrete inputs. -/
theorem duration_monotone_in_reference_time_witness :
    calculateSessionDuration [⟨.START, 0⟩] 5 ≤ calculateSessionDuration [⟨.START, 0⟩] 10 ∧
    calculateSessionDuration [⟨.START, 0⟩, ⟨.STOP, 3⟩] 5
      = calculateSessionDuration [⟨.START, 0⟩, ⟨.STOP, 3⟩] 10 :=
  ⟨duration_monotone_in_reference_time.1 [⟨.START, 0⟩] 5 10 (by decide),
   duration_monotone_in_reference_time.2 [⟨.START, 0⟩] ⟨.STOP, 3⟩ (Or.inr rfl) 5 10⟩

/-- One row of `sessions` joined with its ordered events, as returned by
the Prisma queries with `include: { events: ... }`. -/
structure Session where
  id : Nat
  userId : String
  guildId : String
  status : SessionStatus
  events : List SessionEvent
deriving DecidableEq

/-- The sessions table plus the next fresh session id.  Events are kept
inside the owning session in insertion order; every lifecycle operation
appends events at the caller-supplied current time, so insertion order
coincides with the `timestamp: "asc"` order used by the Prisma reads. -/
structure Store where
  sessions : List Session
  nextId : Nat
deriving DecidableEq

/-- A session is open when its status is ACTIVE or PAUSED — the
`status: { in: ["ACTIVE", "PAUSED"] }` filter of the store queries. -/
def isOpen (s : Session) : Bool :=
  s.status == .ACTIVE || s.status == .PAUSED

/-- The `where` clause of `PrismaService.getActiveSession`: same user,
same guild, open status. -/
def isOpenFor (userId guildId : String) (s : Session) : Bool :=
  s.userId == userId && s.guildId == guildId && isOpen s

/-- All open sessions of a (userId, guildId) pair — the set constrained
by the one-open-session invariant. -/
def openSessions (db : Store) (userId guildId : String) : List Session :=
  db.sessions.filter (isOpenFor userId guildId)

namespace PrismaService

/-- `PrismaService.getActiveSession`: `findFirst` over the open sessions
of the pair. -/
def getActiveSession (db : Store) (userId guildId : String) : Option Session :=
  db.sessions.find? (isOpenFor userId guildId)

/-- Prisma `session.update({ where: { id } })`: rewrite the session with
the given id through `upd`. -/
def updateSession (db : Store) (sid : Nat) (upd : Session → Session) : Store :=
  { db with sessions := db.sessions.map (fun s => if s.id == sid then upd s else s) }

/-- `PrismaService.startSession`: create a session with status ACTIVE and
a single nested START event, returning the fresh session id. -/
def startSession (db : Store) (userId guildId : String) (startTime : Int) : Store × Nat :=
  ({ sessions := db.sessions ++
      [{ id := db.nextId, userId := userId, guildId := guildId,
         status := .ACTIVE, events := [⟨.START, startTime⟩] }],
     nextId := db.nextId + 1 }, db.nextId)

/-- `PrismaService.stopSession`: throws "No active session found" when no
open session exists; otherwise atomically (a single `$transaction`)
appends a STOP event and sets the status to COMPLETED. -/
def stopSession (db : Store) (userId guildId : String) (endTime : Int) : Except String Store :=
  match getActiveSession db userId guildId with
  | none => .error "No active session found"
  | some activeSession =>
    .ok (updateSession db activeSession.id (fun s =>
      { s with events := s.events ++ [⟨.STOP, endTime⟩], status := .COMPLETED }))

/-- `PrismaService.pauseSession`: throws when no open session exists;
otherwise atomically appends a PAUSE event and sets status PAUSED. -/
def pauseSession (db : Store) (userId guildId : String) (pauseTime : Int) : Except String Store :=
  match getActiveSession db userId guildId with
  | none => .error "No active session found"
  | some activeSession =>
    .ok (updateSession db activeSession.id (fun s =>
      { s with events := s.events ++ [⟨.PAUSE, pauseTime⟩], status := .PAUSED }))

/-- `PrismaService.resumeSession`: throws when no open session exists;
otherwise atomically appends a RESUME event and sets status ACTIVE. -/
def resumeSession (db : Store) (userId guildId : String) (resumeTime : Int) : Except String Store :=
  match getActiveSession db userId guildId with
  | none => .error "No active session found"
  | some activeSession =>
    .ok (updateSession db activeSession.id (fun s =>
      { s with events := s.events ++ [⟨.RESUME, resumeTime⟩], status := .ACTIVE }))

/-- Statistics record of `PrismaService.getUserStats`. -/
structure UserStats where
  sessionsCount : Nat
  totalTimeMs : Int
  lastSeen : Option Int
deriving DecidableEq

/-- Sessions of a user in a guild regardless of status (the `findMany`
of `getUserStats`). -/
def sessionsForUser (db : Store) (userId guildId : String) : List Session :=
  db.sessions.filter (fun s => s.userId == userId && s.guildId == guildId)

/-- `PrismaService.getUserStats`: sums `calculateSessionDuration` over
every session of the user (the implicit `new Date()` default reference
is the explicit `now`); `Math.round` is the identity on these integer
millisecond totals; `lastSeen` is the running maximum over each
session's final event timestamp. -/
def getUserStats (db : Store) (userId guildId : String) (now : Int) : UserStats :=
  let sessions := sessionsForUser db userId guildId
  let totalTimeMs := sessions.foldl (fun acc s => acc + calculateSessionDuration s.events now) 0
  let lastSeen := sessions.foldl (fun acc s =>
    match s.events.getLast? with
    | none => acc
    | some latestEvent =>
      match acc with
      | none => some latestEvent.timestamp
      | some t => if latestEvent.timestamp > t then some latestEvent.timestamp else acc) none
  { sessionsCount := sessions.length, totalTimeMs := totalTimeMs, lastSeen := lastSeen }

/-- One pushed leaderboard entry of `PrismaService.getLeaderboard`. -/
structure LeaderboardEntry where
  userId : String
  sessionsCount : Nat
  totalTimeMs : Int
deriving DecidableEq

/-- Distinct values in first-appearance order, as produced by the Prisma
`findMany({ distinct: ["userId"] })` query. -/
def distinctList : List String → List String → List String
  | [], _ => []
  | u :: rest, seen =>
    if u ∈ seen then distinctList rest seen
    else u :: distinctList rest (u :: seen)

/-- The leaderboard array of `PrismaService.getLeaderboard` before the
final sort: one entry per distinct user of the guild whose
`getUserStats` total is strictly positive. -/
def leaderboardEntries (db : Store) (guildId : String) (now : Int) : List LeaderboardEntry :=
  let users := distinctList ((db.sessions.filter (fun s => s.guildId == guildId)).map Session.userId) []
  users.filterMap (fun userId =>
    let userStats := getUserStats db userId guildId now
    if userStats.totalTimeMs > 0 then
      some { userId := userId, sessionsCount := userStats.sessionsCount,
             totalTimeMs := userStats.totalTimeMs }
    else none)

/-- Comparison `(a, b) => b.totalTimeMs - a.totalTimeMs` of the final
`.sort`: descending by total time; JavaScript array sort is stable, so a
stable merge sort models it. -/
def lbGE (a b : LeaderboardEntry) : Bool := decide (b.totalTimeMs ≤ a.totalTimeMs)

/-- `PrismaService.getLeaderboard`: stats per distinct user, keep
positive totals, sort descending by total time, `slice(0, limit)`. -/
def getLeaderboard (db : Store) (guildId : String) (limit : Nat) (now : Int) :
    List LeaderboardEntry :=
  ((leaderboardEntries db guildId now).mergeSort lbGE).take limit

end PrismaService

/-- Discord button component (the `{type, style, label, custom_id}`
object literals of the source; the helpers variant also attaches an
emoji). -/
structure Button where
  type : Nat
  style : Nat
  label : String
  emoji : Option String := none
  custom_id : String
deriving DecidableEq

/-- Discord action row wrapping buttons. -/
structure ButtonRow where
  type : Nat
  components : List Button
deriving DecidableEq

/-- Response object of the `SessionManager` methods
(`{content, components?, flags}`); `InteractionResponseFlags.EPHEMERAL`
is 64. -/
structure Response where
  content : String
  components : List ButtonRow := []
  flags : Nat := 64
deriving DecidableEq

namespace SessionManager

/-- `SessionManager.formatTime`: "0min" for non-positive input, else
hours and floored minutes. -/
def formatTime (ms : Int) : String :=
  if ms ≤ 0 then "0min"
  else
    let totalMinutes := ms.fdiv 60000
    let hours := totalMinutes.fdiv 60
    let minutes := totalMinutes % 60
    if hours > 0 then toString hours ++ "h " ++ toString minutes ++ "min"
    else toString minutes ++ "min"

/-- One line of the "Session-Verlauf" history in
`SessionManager.createSessionContent`; the `<t:...:t>` Discord timestamp
uses floored seconds. -/
def eventLine (event : SessionEvent) : String :=
  let timeStr := "<t:" ++ toString (event.timestamp.fdiv 1000) ++ ":t>"
  match event.eventType with
  | .START => "• " ++ timeStr ++ " - Gestartet\n"
  | .PAUSE => "• " ++ timeStr ++ " - Pausiert\n"
  | .RESUME => "• " ++ timeStr ++ " - Fortgesetzt\n"
  | .STOP => "• " ++ timeStr ++ " - Beendet\n"

/-- `SessionManager.createSessionContent(userId, events, isActive,
finalDuration = null)`; the implicit `new Date()` default of the nested
`calculateSessionDuration` call is the explicit `now`. -/
def createSessionContent (now : Int) (userId : String) (events : List SessionEvent)
    (isActive : Bool) (finalDuration : Option Int) : String :=
  if events.isEmpty then "Keine Session-Daten gefunden."
  else if (events.find? (fun e => e.eventType == .START)).isNone then
    "Session-Start nicht gefunden."
  else
    let header := "**Zeiterfassung für <@" ++ userId ++ ">**\n\n"
    let statusPart :=
      match finalDuration with
      | some d => "✅ **Session beendet**\n📊 **Gesamtzeit:** " ++ formatTime d ++ "\n\n"
      | none =>
        let currentDuration := calculateSessionDuration events now
        if isActive then "🟢 **Aktiv** - " ++ formatTime currentDuration ++ "\n\n"
        else "⏸️ **Pausiert** - " ++ formatTime currentDuration ++ "\n\n"
    header ++ statusPart ++ "**Session-Verlauf:**\n"
      ++ String.join (events.map eventLine)

/-- `SessionManager.createSessionButtons`. -/
def createSessionButtons (isActive : Bool) : ButtonRow :=
  if isActive then
    { type := 1, components := [
        { type := 2, style := 2, label := "Pausieren", custom_id := "pause_session" },
        { type := 2, style := 4, label := "Beenden", custom_id := "stop_session" }] }
  else
    { type := 1, components := [
        { type := 2, style := 3, label := "Fortsetzen", custom_id := "resume_session" },
        { type := 2, style := 4, label := "Beenden", custom_id := "stop_session" }] }

/-- `SessionManager.showExistingSession`: render the already-open
session with its live duration and status-appropriate buttons. -/
def showExistingSession (now : Int) (activeSession : Session) : Response :=
  { content := createSessionContent now activeSession.userId activeSession.events
      (activeSession.status == .ACTIVE) none,
    components := [createSessionButtons (activeSession.status == .ACTIVE)],
    flags := 64 }

/-- `SessionManager.startSession(userId, guildId, channelId)`; the
`new Date()` start time is the explicit `now`.  The online-list update
(`updateOnlineList`) only edits guild-settings messages, never the
sessions table, and is omitted.  In the fresh-start branch the source
passes records shaped `{type, time}` to `createSessionContent`, whose
`eventType === 'START'` lookup therefore fails, so the produced content
is the constant "Session-Start nicht gefunden." string. -/
def startSession (db : Store) (userId guildId : String) (now : Int) : Store × Response :=
  match PrismaService.getActiveSession db userId guildId with
  | some activeSession => (db, showExistingSession now activeSession)
  | none =>
    let db1 := (PrismaService.startSession db userId guildId now).1
    (db1,
      { content := "Session-Start nicht gefunden.",
        components := [createSessionButtons true], flags := 64 })

/-- `SessionManager.stopSession`; a JavaScript exception from the store
layer surfaces as `Except.error` (the store is unmodified at every throw
site). -/
def stopSession (db : Store) (userId guildId : String) (now : Int) :
    Except String (Store × Response) :=
  match PrismaService.getActiveSession db userId guildId with
  | none => .ok (db, { content := "❌ Du hast keine aktive Session!", flags := 64 })
  | some activeSession => do
    let sessionDuration := calculateSessionDuration activeSession.events now
    let db1 ← PrismaService.stopSession db userId guildId now
    let allEvents := activeSession.events ++ [⟨.STOP, now⟩]
    .ok (db1, { content := createSessionContent now userId allEvents false (some sessionDuration),
                flags := 64 })

/-- `SessionManager.pauseSession`; the guard
`!activeSession || activeSession.status !== 'ACTIVE'` rejects a missing
and an already-paused session with the same generic message. -/
def pauseSession (db : Store) (userId guildId : String) (now : Int) :
    Except String (Store × Response) :=
  match PrismaService.getActiveSession db userId guildId with
  | none => .ok (db, { content := "❌ Du hast keine aktive Session!", flags := 64 })
  | some activeSession =>
    if activeSession.status != .ACTIVE then
      .ok (db, { content := "❌ Du hast keine aktive Session!", flags := 64 })
    else do
      let db1 ← PrismaService.pauseSession db userId guildId now
      let allEvents := activeSession.events ++ [⟨.PAUSE, now⟩]
      .ok (db1, { content := createSessionContent now userId allEvents true none,
                  components := [createSessionButtons false], flags := 64 })

/-- `SessionManager.resumeSession`; rejects unless the current status is
exactly PAUSED. -/
def resumeSession (db : Store) (userId guildId : String) (now : Int) :
    Except String (Store × Response) :=
  match PrismaService.getActiveSession db userId guildId with
  | none => .ok (db, { content := "❌ Du hast keine pausierte Session!", flags := 64 })
  | some activeSession =>
    if activeSession.status != .PAUSED then
      .ok (db, { content := "❌ Du hast keine pausierte Session!", flags := 64 })
    else do
      let db1 ← PrismaService.resumeSession db userId guildId now
      let allEvents := activeSession.events ++ [⟨.RESUME, now⟩]
      .ok (db1, { content := createSessionContent now userId allEvents true none,
                  components := [createSessionButtons true], flags := 64 })

end SessionManager

/-- Discord embed field (`{name, value, inline}`). -/
structure EmbedField where
  name : String
  value : String
  inline : Bool
deriving DecidableEq

/-- Discord embed object as built by the helpers; the
`timestamp: new Date().toISOString()` field is wall-clock presentation
metadata and is not modelled. -/
structure Embed where
  title : String
  description : String
  fields : List EmbedField
  color : Nat
deriving DecidableEq

namespace Helpers

/-- Helpers `formatTime` (src/src/utils/helpers.js): "0m" for
non-positive input, else hours and floored minutes. -/
def formatTime (ms : Int) : String :=
  if ms ≤ 0 then "0m"
  else
    let totalMinutes := ms.fdiv 60000
    let hours := totalMinutes.fdiv 60
    let minutes := totalMinutes % 60
    if hours > 0 then toString hours ++ "h " ++ toString minutes ++ "m"
    else toString minutes ++ "m"

/-- Helpers `createTrackingButtons`. -/
def createTrackingButtons (status : String) : List ButtonRow :=
  if status == "active" then
    [{ type := 1, components := [
        { type := 2, style := 2, label := "Pausieren", emoji := some "⏸️",
          custom_id := "pause_tracking" },
        { type := 2, style := 4, label := "Stoppen", emoji := some "⏹️",
          custom_id := "stop_tracking" }] }]
  else if status == "paused" then
    [{ type := 1, components := [
        { type := 2, style := 3, label := "Fortsetzen", emoji := some "▶️",
          custom_id := "resume_tracking" },
        { type := 2, style := 4, label := "Stoppen", emoji := some "⏹️",
          custom_id := "stop_tracking" }] }]
  else []

/-- Helpers `createTrackingStatusEmbed` (the `toLowerCase` of the status
text is spelt out per branch). -/
def createTrackingStatusEmbed (userId : String) (status : String) (currentTime : Int) : Embed :=
  let emoji := if status == "active" then "▶️" else "⏸️"
  let text := if status == "active" then "Fortgesetzt" else "Pausiert"
  let lowerText := if status == "active" then "fortgesetzt" else "pausiert"
  let color := if status == "active" then 0x00ff00 else 0xffa500
  { title := emoji ++ " Session " ++ text,
    description := "<@" ++ userId ++ ">, deine Session wurde " ++ lowerText ++ ".",
    fields := [
      { name := "⏱️ Bisherige Zeit", value := formatTime currentTime, inline := true },
      { name := "📊 Status", value := emoji ++ " " ++ text, inline := true }],
    color := color }

end Helpers

/-- Response object of the `TimeTrackingManager` methods: either a plain
ephemeral `content` reply or an embeds-with-buttons reply. -/
structure TrackResponse where
  content : Option String := none
  embeds : List Embed := []
  components : List ButtonRow := []
  flags : Option Nat := none
deriving DecidableEq

namespace TimeTrackingManager

/-- `TimeTrackingManager.pauseTracking` (sessionManager.js, second
variant): distinct guards for a missing session and an already-paused
session; the live-channel update touches no session state and is
omitted; `new Date()` is the explicit `now`. -/
def pauseTracking (db : Store) (userId guildId : String) (now : Int) :
    Except String (Store × TrackResponse) :=
  match PrismaService.getActiveSession db userId guildId with
  | none =>
    .ok (db, { content := some "❌ **Du hast keine aktive Zeiterfassung!**", flags := some 64 })
  | some activeSession =>
    if activeSession.status == .PAUSED then
      .ok (db, { content := some "❌ **Deine Session ist bereits pausiert!**", flags := some 64 })
    else do
      let currentSessionTime := calculateSessionDuration activeSession.events now
      let db1 ← PrismaService.pauseSession db userId guildId now
      .ok (db1,
        { embeds := [Helpers.createTrackingStatusEmbed userId "paused" currentSessionTime],
          components := Helpers.createTrackingButtons "paused" })

end TimeTrackingManager

/-- Store state after a manager call that may model a JavaScript throw:
an exception interrupts the handler before any further database write,
leaving the store as it was at the throw site. -/
def mgrStore (db : Store) : Except String (Store × Response) → Store
  | .ok (db1, _) => db1
  | .error _ => db

theorem filter_map_length_le {α : Type} (l : List α) (f : α → α) (p : α → Bool)
    (h : ∀ a ∈ l, p (f a) = true → p a = true) :
    ((l.map f).filter p).length ≤ (l.filter p).length := by
  induction l with
  | nil => simp
  | cons a l ih =>
    have ha := h a (List.mem_cons_self a l)
    have ih' := ih (fun x hx hpx => h x (List.mem_cons_of_mem a hx) hpx)
    simp only [List.map_cons]
    cases hpf : p (f a) with
    | true =>
      rw [List.filter_cons_of_pos hpf, List.filter_cons_of_pos (ha hpf)]
      simpa using ih'
    | false =>
      rw [List.filter_cons_of_neg (by simp [hpf])]
      cases hpa : p a with
      | true =>
        rw [List.filter_cons_of_pos hpa]
        exact le_trans ih' (by simp)
      | false =>
        rw [List.filter_cons_of_neg (by simp [hpa])]
        exact ih'

theorem filter_singleton_length_le {α : Type} (p : α → Bool) (a : α) :
    (List.filter p [a]).length ≤ 1 := by
  cases h : p a <;> simp [List.filter_cons, h]

theorem getActiveSession_mem {db : Store} {u g : String} {s : Session}
    (h : PrismaService.getActiveSession db u g = some s) :
    s ∈ db.sessions :=
  List.mem_of_find?_eq_some h

theorem getActiveSession_isOpenFor {db : Store} {u g : String} {s : Session}
    (h : PrismaService.getActiveSession db u g = some s) :
    isOpenFor u g s = true :=
  List.find?_some h

theorem getActiveSession_isOpen {db : Store} {u g : String} {s : Session}
    (h : PrismaService.getActiveSession db u g = some s) :
    isOpen s = true := by
  have := getActiveSession_isOpenFor h
  simp only [isOpenFor, Bool.and_eq_true] at this
  exact this.2

theorem getActiveSession_none_openSessions {db : Store} {u g : String}
    (h : PrismaService.getActiveSession db u g = none) :
    openSessions db u g = [] := by
  rw [openSessions, List.filter_eq_nil_iff]
  exact fun a ha hpa => (List.find?_eq_none.mp h a ha) hpa

theorem updateSession_openCount_le (db : Store) (a : Session) (upd : Session → Session)
    (ha : a ∈ db.sessions)
    (hnodup : (db.sessions.map Session.id).Nodup)
    (huser : ∀ s, (upd s).userId = s.userId)
    (hguild : ∀ s, (upd s).guildId = s.guildId)
    (hopen : isOpen a = true)
    (u g : String) :
    (openSessions (PrismaService.updateSession db a.id upd) u g).length
      ≤ (openSessions db u g).length := by
  apply filter_map_length_le
  intro x hx hpx
  cases hxid : (x.id == a.id) with
  | false =>
    rw [if_neg (by simp [hxid])] at hpx
    exact hpx
  | true =>
    have hxa : x = a :=
      List.inj_on_of_nodup_map hnodup hx ha (by simpa using hxid)
    subst hxa
    rw [if_pos (by simp [hxid])] at hpx
    simp only [isOpenFor, Bool.and_eq_true, beq_iff_eq, huser, hguild] at hpx
    simp only [isOpenFor, Bool.and_eq_true, beq_iff_eq]
    exact ⟨hpx.1, hopen⟩

theorem updateSession_ids (db : Store) (sid : Nat) (upd : Session → Session)
    (hid : ∀ s, (upd s).id = s.id) :
    (PrismaService.updateSession db sid upd).sessions.map Session.id
      = db.sessions.map Session.id := by
  simp only [PrismaService.updateSession, List.map_map]
  apply List.map_congr_left
  intro s _
  cases h : (s.id == sid) <;> simp [Function.comp, h, hid]

theorem updateSession_length (db : Store) (sid : Nat) (upd : Session → Session) :
    (PrismaService.updateSession db sid upd).sessions.length = db.sessions.length := by
  simp [PrismaService.updateSession]

/-- Demonstration data used by the concrete witnesses: a store holding a
single ACTIVE session of user "u" in guild "g". -/
def activeDemoSession : Session :=
  { id := 0, userId := "u", guildId := "g", status := .ACTIVE, events := [⟨.START, 0⟩] }

/-- Store holding only `activeDemoSession`. -/
def activeDemoStore : Store := { sessions := [activeDemoSession], nextId := 1 }

/-- Demonstration data: a PAUSED session of user "u" in guild "g". -/
def pausedDemoSession : Session :=
  { id := 0, userId := "u", guildId := "g", status := .PAUSED,
    events := [⟨.START, 0⟩, ⟨.PAUSE, 1000⟩] }

/-- Store holding only `pausedDemoSession`. -/
def pausedDemoStore : Store := { sessions := [pausedDemoSession], nextId := 1 }

/-- Store with no sessions at all. -/
def emptyStore : Store := { sessions := [], nextId := 0 }

/-- C1: each lifecycle operation of the `SessionManager`, executed as one
atomic invocation, preserves the open-session invariant — at most one
session with status ACTIVE or PAUSED per (userId, guildId) pair.
`start` appends a session only when the pair has no open session (and
leaves the store untouched otherwise), and pause/resume/stop never
create a session: they keep the session list's ids (and hence its
length) and the id counter unchanged.  Uniqueness and boundedness of the
session ids are preserved as well, so the hypotheses are re-established
for the next operation. -/
theorem lifecycle_preserves_open_session_invariant
    (db : Store) (u g : String) (now : Int)
    (hinv : ∀ u' g', (openSessions db u' g').length ≤ 1)
    (hnodup : (db.sessions.map Session.id).Nodup)
    (hbound : ∀ s ∈ db.sessions, s.id < db.nextId) :
    (∀ u' g',
      (openSessions (SessionManager.startSession db u g now).1 u' g').length ≤ 1 ∧
      (openSessions (mgrStore db (SessionManager.pauseSession db u g now)) u' g').length ≤ 1 ∧
      (openSessions (mgrStore db (SessionManager.resumeSession db u g now)) u' g').length ≤ 1 ∧
      (openSessions (mgrStore db (SessionManager.stopSession db u g now)) u' g').length ≤ 1) ∧
    (∀ s, PrismaService.getActiveSession db u g = some s →
      (SessionManager.startSession db u g now).1 = db) ∧
    (PrismaService.getActiveSession db u g = none →
      (SessionManager.startSession db u g now).1.sessions
        = db.sessions ++ [{ id := db.nextId, userId := u, guildId := g,
                            status := .ACTIVE, events := [⟨.START, now⟩] }]) ∧
    (∀ res ∈ [mgrStore db (SessionManager.pauseSession db u g now),
              mgrStore db (SessionManager.resumeSession db u g now),
              mgrStore db (SessionManager.stopSession db u g now)],
      res.sessions.map Session.id = db.sessions.map Session.id ∧
      res.sessions.length = db.sessions.length ∧
      res.nextId = db.nextId) ∧
    (((SessionManager.startSession db u g now).1.sessions.map Session.id).Nodup ∧
      ∀ s ∈ (SessionManager.startSession db u g now).1.sessions,
        s.id < (SessionManager.startSession db u g now).1.nextId) := by
  -- characterization of the three status-updating operations
  have hpauseChar : mgrStore db (SessionManager.pauseSession db u g now) = db ∨
      ∃ a, PrismaService.getActiveSession db u g = some a ∧
        mgrStore db (SessionManager.pauseSession db u g now)
          = PrismaService.updateSession db a.id
              (fun s => { s with events := s.events ++ [⟨.PAUSE, now⟩], status := .PAUSED }) := by
    rcases h : PrismaService.getActiveSession db u g with _ | a
    · left; simp [SessionManager.pauseSession, h, mgrStore]
    · cases hst : (a.status != SessionStatus.ACTIVE) with
      | true => left; simp [SessionManager.pauseSession, h, hst, mgrStore]
      | false =>
        right
        refine ⟨a, rfl, ?_⟩
        simp only [SessionManager.pauseSession, h, hst, PrismaService.pauseSession, mgrStore]
        rfl
  have hresumeChar : mgrStore db (SessionManager.resumeSession db u g now) = db ∨
      ∃ a, PrismaService.getActiveSession db u g = some a ∧
        mgrStore db (SessionManager.resumeSession db u g now)
          = PrismaService.updateSession db a.id
              (fun s => { s with events := s.events ++ [⟨.RESUME, now⟩], status := .ACTIVE }) := by
    rcases h : PrismaService.getActiveSession db u g with _ | a
    · left; simp [SessionManager.resumeSession, h, mgrStore]
    · cases hst : (a.status != SessionStatus.PAUSED) with
      | true => left; simp [SessionManager.resumeSession, h, hst, mgrStore]
      | false =>
        right
        refine ⟨a, rfl, ?_⟩
        simp only [SessionManager.resumeSession, h, hst, PrismaService.resumeSession, mgrStore]
        rfl
  have hstopChar : mgrStore db (SessionManager.stopSession db u g now) = db ∨
      ∃ a, PrismaService.getActiveSession db u g = some a ∧
        mgrStore db (SessionManager.stopSession db u g now)
          = PrismaService.updateSession db a.id
              (fun s => { s with events := s.events ++ [⟨.STOP, now⟩], status := .COMPLETED }) := by
    rcases h : PrismaService.getActiveSession db u g with _ | a
    · left; simp [SessionManager.stopSession, h, mgrStore]
    · right
      refine ⟨a, rfl, ?_⟩
      simp only [SessionManager.stopSession, h, PrismaService.stopSession, mgrStore]
      rfl
  -- invariant bound after a status update of the found open session
  have hupdInv : ∀ (a : Session) (upd : Session → Session),
      PrismaService.getActiveSession db u g = some a →
      (∀ s, (upd s).userId = s.userId) → (∀ s, (upd s).guildId = s.guildId) →
      ∀ u' g', (openSessions (PrismaService.updateSession db a.id upd) u' g').length ≤ 1 :=
    fun a upd ha huser hguild u' g' =>
      le_trans (updateSession_openCount_le db a upd (getActiveSession_mem ha) hnodup
        huser hguild (getActiveSession_isOpen ha) u' g') (hinv u' g')
  -- start characterizations
  have hstartSome : ∀ s, PrismaService.getActiveSession db u g = some s →
      (SessionManager.startSession db u g now).1 = db := by
    intro s h; simp [SessionManager.startSession, h]
  have hstartNone : PrismaService.getActiveSession db u g = none →
      (SessionManager.startSession db u g now).1
        = { sessions := db.sessions ++
              [{ id := db.nextId, userId := u, guildId := g,
                 status := .ACTIVE, events := [⟨.START, now⟩] }],
            nextId := db.nextId + 1 } := by
    intro h; simp [SessionManager.startSession, h, PrismaService.startSession]
  have hstartInv : ∀ u' g',
      (openSessions (SessionManager.startSession db u g now).1 u' g').length ≤ 1 := by
    intro u' g'
    rcases h : PrismaService.getActiveSession db u g with _ | a
    · rw [hstartNone h]
      simp only [openSessions, List.filter_append, List.length_append]
      cases hpred : isOpenFor u' g'
          { id := db.nextId, userId := u, guildId := g,
            status := .ACTIVE, events := [⟨.START, now⟩] } with
      | false =>
        rw [List.filter_cons_of_neg (by simp [hpred]), List.filter_nil]
        simpa using hinv u' g'
      | true =>
        have hug : u = u' ∧ g = g' := by
          simp only [isOpenFor, Bool.and_eq_true, beq_iff_eq] at hpred
          exact ⟨hpred.1.1, hpred.1.2⟩
        obtain ⟨rfl, rfl⟩ := hug
        have h0 : openSessions db u g = [] := getActiveSession_none_openSessions h
        simp only [openSessions] at h0
        rw [h0, List.filter_cons_of_pos hpred, List.filter_nil]
        simp
    · rw [hstartSome a h]; exact hinv u' g'
  refine ⟨?_, hstartSome, ?_, ?_, ?_⟩
  · intro u' g'
    refine ⟨hstartInv u' g', ?_, ?_, ?_⟩
    · rcases hpauseChar with h | ⟨a, ha, h⟩
      · rw [h]; exact hinv u' g'
      · rw [h]
        exact hupdInv a
          (fun s => { s with events := s.events ++ [⟨.PAUSE, now⟩], status := .PAUSED })
          ha (fun s => rfl) (fun s => rfl) u' g'
    · rcases hresumeChar with h | ⟨a, ha, h⟩
      · rw [h]; exact hinv u' g'
      · rw [h]
        exact hupdInv a
          (fun s => { s with events := s.events ++ [⟨.RESUME, now⟩], status := .ACTIVE })
          ha (fun s => rfl) (fun s => rfl) u' g'
    · rcases hstopChar with h | ⟨a, ha, h⟩
      · rw [h]; exact hinv u' g'
      · rw [h]
        exact hupdInv a
          (fun s => { s with events := s.events ++ [⟨.STOP, now⟩], status := .COMPLETED })
          ha (fun s => rfl) (fun s => rfl) u' g'
  · intro h; rw [hstartNone h]
  · intro res hres
    have hcase : res = db ∨ ∃ sid upd, (∀ s : Session, (upd s).id = s.id) ∧
        res = PrismaService.updateSession db sid upd := by
      simp only [List.mem_cons, List.not_mem_nil, or_false] at hres
      rcases hres with h | h | h
      · subst h
        rcases hpauseChar with hc | ⟨a, _, hc⟩
        · exact Or.inl hc
        · exact Or.inr ⟨a.id,
            (fun s => { s with events := s.events ++ [⟨.PAUSE, now⟩], status := .PAUSED }),
            fun s => rfl, hc⟩
      · subst h
        rcases hresumeChar with hc | ⟨a, _, hc⟩
        · exact Or.inl hc
        · exact Or.inr ⟨a.id,
            (fun s => { s with events := s.events ++ [⟨.RESUME, now⟩], status := .ACTIVE }),
            fun s => rfl, hc⟩
      · subst h
        rcases hstopChar with hc | ⟨a, _, hc⟩
        · exact Or.inl hc
        · exact Or.inr ⟨a.id,
            (fun s => { s with events := s.events ++ [⟨.STOP, now⟩], status := .COMPLETED }),
            fun s => rfl, hc⟩
    rcases hcase with h | ⟨sid, upd, hid, h⟩
    · subst h; exact ⟨rfl, rfl, rfl⟩
    · subst h
      refine ⟨updateSession_ids db sid upd hid, updateSession_length db sid upd, rfl⟩
  · rcases h : PrismaService.getActiveSession db u g with _ | a
    · rw [hstartNone h]
      constructor
      · simp only [List.map_append, List.map_cons, List.map_nil]
        rw [List.nodup_append]
        refine ⟨hnodup, List.nodup_singleton _, ?_⟩
        intro x hx hx'
        simp only [List.mem_singleton] at hx'
        subst hx'
        obtain ⟨s, hs, hsid⟩ := List.mem_map.mp hx
        exact absurd hsid (Nat.ne_of_lt (hbound s hs))
      · intro s hs
        simp only [List.mem_append, List.mem_singleton] at hs
        rcases hs with hs | hs
        · exact Nat.lt_succ_of_lt (hbound s hs)
        · subst hs; exact Nat.lt_succ_self _
    · rw [hstartSome a h]
      exact ⟨hnodup, hbound⟩

/-- Closed witness for C1 at the one-session demo store. -/
theorem lifecycle_preserves_open_session_invariant_witness :
    (openSessions (SessionManager.startSession activeDemoStore "u" "g" 99).1 "u" "g").length ≤ 1 ∧
    (mgrStore activeDemoStore
        (SessionManager.pauseSession activeDemoStore "u" "g" 99)).sessions.length
      = activeDemoStore.sessions.length :=
  have h := lifecycle_preserves_open_session_invariant activeDemoStore "u" "g" 99
    (fun u' g' => filter_singleton_length_le (isOpenFor u' g') activeDemoSession)
    (by decide) (by decide)
  ⟨(h.1 "u" "g").1,
   (h.2.2.2.1 (mgrStore activeDemoStore (SessionManager.pauseSession activeDemoStore "u" "g" 99))
      (List.mem_cons_self _ _)).2.1⟩

theorem append_regroup (a b c d e f : String) :
    ((a ++ ((b ++ c) ++ d)) ++ e) ++ f = (a ++ b) ++ c ++ (d ++ (e ++ f)) := by
  simp only [String.append_assoc]

/-- C6: calling start while the pair has an open session leaves the
store untouched and returns the existing-session view built by
`showExistingSession` — the response whose content embeds the session's
current computed duration — and the store still holds exactly one open
session for the pair. -/
theorem start_with_open_session_is_observational
    (db : Store) (u g : String) (now : Int) (s : Session)
    (hfind : PrismaService.getActiveSession db u g = some s)
    (hinv : ∀ u' g', (openSessions db u' g').length ≤ 1) :
    SessionManager.startSession db u g now = (db, SessionManager.showExistingSession now s) ∧
    (openSessions db u g).length = 1 ∧
    (s.events.isEmpty = false →
      (s.events.find? (fun e => e.eventType == EventType.START)).isSome = true →
      ∃ pre post, (SessionManager.showExistingSession now s).content
        = pre ++ SessionManager.formatTime (calculateSessionDuration s.events now) ++ post) := by
  refine ⟨?_, ?_, ?_⟩
  · simp [SessionManager.startSession, hfind]
  · have hmem : s ∈ openSessions db u g :=
      List.mem_filter.mpr ⟨getActiveSession_mem hfind, getActiveSession_isOpenFor hfind⟩
    have h1 : 0 < (openSessions db u g).length :=
      List.length_pos.mpr (List.ne_nil_of_mem hmem)
    have h2 := hinv u g
    omega
  · intro hne hstart
    have hnone : (s.events.find? (fun e => e.eventType == EventType.START)).isNone = false := by
      rcases Option.isSome_iff_exists.mp hstart with ⟨e, he⟩
      simp [he]
    simp only [SessionManager.showExistingSession, SessionManager.createSessionContent,
      hne, hnone, Bool.false_eq_true, if_false]
    cases hact : (s.status == SessionStatus.ACTIVE) with
    | true =>
      refine ⟨("**Zeiterfassung für <@" ++ s.userId ++ ">**\n\n") ++ "🟢 **Aktiv** - ",
        "\n\n" ++ ("**Session-Verlauf:**\n"
          ++ String.join (s.events.map SessionManager.eventLine)), ?_⟩
      rw [if_pos (rfl : (true : Bool) = true)]
      exact append_regroup _ _ _ _ _ _
    | false =>
      refine ⟨("**Zeiterfassung für <@" ++ s.userId ++ ">**\n\n") ++ "⏸️ **Pausiert** - ",
        "\n\n" ++ ("**Session-Verlauf:**\n"
          ++ String.join (s.events.map SessionManager.eventLine)), ?_⟩
      rw [if_neg (by simp : ¬((false : Bool) = true))]
      exact append_regroup _ _ _ _ _ _

/-- Closed witness for C6 at the one-ACTIVE-session demo store. -/
theorem start_with_open_session_is_observational_witness :
    SessionManager.startSession activeDemoStore "u" "g" 60000
      = (activeDemoStore, SessionManager.showExistingSession 60000 activeDemoSession) ∧
    (openSessions activeDemoStore "u" "g").length = 1 :=
  have h := start_with_open_session_is_observational activeDemoStore "u" "g" 60000
    activeDemoSession rfl
    (fun u' g' => filter_singleton_length_le (isOpenFor u' g') activeDemoSession)
  ⟨h.1, h.2.1⟩

/-- Counterexample for C7 as stated: in `SessionManager.pauseSession`
the already-paused rejection is byte-for-byte the generic
no-open-session response — pausing a PAUSED session and pausing with no
session at all produce identical replies, so the failure is not the
distinct already-paused error there (no event is appended either way). -/
theorem pause_already_paused_not_distinct_counterexample :
    SessionManager.pauseSession pausedDemoStore "u" "g" 2000
      = .ok (pausedDemoStore,
          { content := "❌ Du hast keine aktive Session!", components := [], flags := 64 }) ∧
    SessionManager.pauseSession emptyStore "u" "g" 2000
      = .ok (emptyStore,
          { content := "❌ Du hast keine aktive Session!", components := [], flags := 64 }) :=
  ⟨rfl, rfl⟩

/-- C7 (amended): pausing an already-paused session appends no event and
changes no status in either manager (the store is returned unchanged);
`TimeTrackingManager.pauseTracking` rejects it with the distinct
already-paused message (different from its no-open-session message),
while `SessionManager.pauseSession` rejects it with the same generic
no-active-session message it uses when no session exists. -/
theorem pause_already_paused_rejected
    (db : Store) (u g : String) (now : Int) (s : Session)
    (hfind : PrismaService.getActiveSession db u g = some s)
    (hp : s.status = SessionStatus.PAUSED) :
    TimeTrackingManager.pauseTracking db u g now
      = .ok (db, { content := some "❌ **Deine Session ist bereits pausiert!**",
                   embeds := [], components := [], flags := some 64 }) ∧
    ({ content := some "❌ **Deine Session ist bereits pausiert!**",
       embeds := [], components := [], flags := some 64 } : TrackResponse)
      ≠ { content := some "❌ **Du hast keine aktive Zeiterfassung!**",
          embeds := [], components := [], flags := some 64 } ∧
    SessionManager.pauseSession db u g now
      = .ok (db, { content := "❌ Du hast keine aktive Session!",
                   components := [], flags := 64 }) := by
  refine ⟨?_, by decide, ?_⟩
  · simp [TimeTrackingManager.pauseTracking, hfind, hp]
  · simp [SessionManager.pauseSession, hfind, hp]

/-- Closed witness for C7's amended theorem at the PAUSED demo store. -/
theorem pause_already_paused_rejected_witness :
    TimeTrackingManager.pauseTracking pausedDemoStore "u" "g" 2000
      = .ok (pausedDemoStore, { content := some "❌ **Deine Session ist bereits pausiert!**",
                                embeds := [], components := [], flags := some 64 }) :=
  (pause_already_paused_rejected pausedDemoStore "u" "g" 2000 pausedDemoSession rfl rfl).1

/-- C8: calling stop with no open session for the pair fails with the
no-open-session error at both layers — the generic no-active-session
reply in `SessionManager.stopSession` and the thrown
"No active session found" in `PrismaService.stopSession` — and the store
is returned untouched: no event appended, no session created or
modified. -/
theorem stop_without_open_session_fails
    (db : Store) (u g : String) (now : Int)
    (h : PrismaService.getActiveSession db u g = none) :
    SessionManager.stopSession db u g now
      = .ok (db, { content := "❌ Du hast keine aktive Session!",
                   components := [], flags := 64 }) ∧
    PrismaService.stopSession db u g now = .error "No active session found" := by
  constructor
  · simp [SessionManager.stopSession, h]
  · simp [PrismaService.stopSession, h]

/-- Closed witness for C8 at the empty store. -/
theorem stop_without_open_session_fails_witness :
    SessionManager.stopSession emptyStore "u" "g" 5
      = .ok (emptyStore, { content := "❌ Du hast keine aktive Session!",
                           components := [], flags := 64 }) ∧
    PrismaService.stopSession emptyStore "u" "g" 5 = .error "No active session found" :=
  stop_without_open_session_fails emptyStore "u" "g" 5 rfl

/-- Demonstration store for the leaderboard scenario: three completed
sessions in guild "g" with totals A: 0 ms, B: 5000 ms, C: 2000 ms. -/
def leaderboardDemoStore : Store :=
  { sessions := [
      { id := 0, userId := "A", guildId := "g", status := .COMPLETED,
        events := [⟨.START, 0⟩, ⟨.STOP, 0⟩] },
      { id := 1, userId := "B", guildId := "g", status := .COMPLETED,
        events := [⟨.START, 0⟩, ⟨.STOP, 5000⟩] },
      { id := 2, userId := "C", guildId := "g", status := .COMPLETED,
        events := [⟨.START, 0⟩, ⟨.STOP, 2000⟩] }],
    nextId := 3 }

/-- C9: `getLeaderboard` returns at most `limit` entries; every returned
entry carries its user's `getUserStats` total, which is strictly
positive — so every user whose total active time is zero is removed;
the entries are sorted descending by total active time; and on the
three-user scenario with totals {A: 0, B: 5000, C: 2000} it returns the
B and C entries in that order with A excluded. -/
theorem getLeaderboard_filters_sorts_limits :
    (∀ (db : Store) (g : String) (limit : Nat) (now : Int),
      (PrismaService.getLeaderboard db g limit now).length ≤ limit) ∧
    (∀ (db : Store) (g : String) (limit : Nat) (now : Int),
      ∀ e ∈ PrismaService.getLeaderboard db g limit now,
        e.totalTimeMs = (PrismaService.getUserStats db e.userId g now).totalTimeMs ∧
        0 < e.totalTimeMs) ∧
    (∀ (db : Store) (g : String) (limit : Nat) (now : Int),
      (PrismaService.getLeaderboard db g limit now).Pairwise
        (fun a b => b.totalTimeMs ≤ a.totalTimeMs)) ∧
    (PrismaService.getLeaderboard leaderboardDemoStore "g" 10 0
      = [⟨"B", 1, 5000⟩, ⟨"C", 1, 2000⟩]) := by
  refine ⟨?_, ?_, ?_, ?_⟩
  · intro db g limit now
    simp only [PrismaService.getLeaderboard, List.length_take]
    exact min_le_left _ _
  · intro db g limit now e he
    have h1 : e ∈ (PrismaService.leaderboardEntries db g now).mergeSort PrismaService.lbGE :=
      List.mem_of_mem_take he
    have h2 : e ∈ PrismaService.leaderboardEntries db g now := List.mem_mergeSort.mp h1
    obtain ⟨u, hu, hf⟩ := List.mem_filterMap.mp h2
    simp only [] at hf
    split at hf
    next hpos =>
      cases hf
      exact ⟨rfl, hpos⟩
    next hpos => cases hf
  · intro db g limit now
    have htrans : ∀ a b c : PrismaService.LeaderboardEntry,
        PrismaService.lbGE a b = true → PrismaService.lbGE b c = true →
        PrismaService.lbGE a c = true := by
      intro a b c hab hbc
      simp only [PrismaService.lbGE, decide_eq_true_eq] at hab hbc ⊢
      omega
    have htotal : ∀ a b : PrismaService.LeaderboardEntry,
        (PrismaService.lbGE a b || PrismaService.lbGE b a) = true := by
      intro a b
      simp only [PrismaService.lbGE, Bool.or_eq_true, decide_eq_true_eq]
      omega
    have hs := List.sorted_mergeSort htrans htotal (PrismaService.leaderboardEntries db g now)
    have hsub := List.Pairwise.sublist (List.take_sublist limit _) hs
    exact hsub.imp (fun h => by
      simpa [PrismaService.lbGE, decide_eq_true_eq] using h)
  · have hentries : PrismaService.leaderboardEntries leaderboardDemoStore "g" 0
        = [⟨"B", 1, 5000⟩, ⟨"C", 1, 2000⟩] := by decide
    show ((PrismaService.leaderboardEntries leaderboardDemoStore "g" 0).mergeSort
        PrismaService.lbGE).take 10 = _
    rw [hentries, List.mergeSort_of_sorted (by decide)]
    rfl

/-- Closed witness for C9, applying the bound and the positivity parts
at the demo store's B entry. -/
theorem getLeaderboard_filters_sorts_limits_witness :
    (PrismaService.getLeaderboard leaderboardDemoStore "g" 10 0).length ≤ 10 ∧
    ((⟨"B", 1, 5000⟩ : PrismaService.LeaderboardEntry).totalTimeMs
      = (PrismaService.getUserStats leaderboardDemoStore "B" "g" 0).totalTimeMs ∧
     (0:Int) < (⟨"B", 1, 5000⟩ : PrismaService.LeaderboardEntry).totalTimeMs) :=
  ⟨getLeaderboard_filters_sorts_limits.1 leaderboardDemoStore "g" 10 0,
   getLeaderboard_filters_sorts_limits.2.1 leaderboardDemoStore "g" 10 0 ⟨"B", 1, 5000⟩
     (by rw [getLeaderboard_filters_sorts_limits.2.2.2]; exact List.mem_cons_self _ _)⟩
